import Mathlib

/-!
Verification of the user-account data-access and credential layer
(`internal/password/hash.go`, `internal/data/users.go`,
`internal/data/filters.go`) against its natural-language specification.

Go strings are modelled as Lean `String`; `len(s)` on a Go string counts
UTF-8 bytes, modelled by `String.utf8ByteSize`. Go byte slices (`[]byte`)
are modelled as `Option (List Nat)` where `none` is the nil slice.
Functions that can `panic` return `Except String α`, the error carrying
the panic message. Database interaction is modelled by explicit state
passing over a list of rows, with the error values the Go code
discriminates on (`sql.ErrNoRows`, `pq` error strings) made explicit.
-/

set_option autoImplicit false

namespace BackendGoAPI

/-- Byte content of a Go string (`[]byte(s)`), modelled as the list of
code points of its characters: an injective, executable stand-in for the
UTF-8 bytes. -/
def strBytes (s : String) : List Nat := s.toList.map Char.toNat

/-- Modelled from the spec: the error values of the external hashing
primitive `golang.org/x/crypto/bcrypt` that `hash.go` discriminates on —
a hash/plaintext mismatch, the input-length limit of the primitive, and
a malformed stored hash. -/
inductive BcryptError where
  | mismatchedHashAndPassword
  | passwordTooLong
  | hashTooShort
  deriving DecidableEq, Repr

/-- Modelled from the spec: a well-formed bcrypt hash records the cost and
the hashed key. Encoded into bytes as a tag byte 36 (the character that
begins every real bcrypt hash) followed by the cost and the key bytes, so
that arbitrary stored bytes may fail to decode (malformed hash). -/
def bcryptEncodeHash (cost : Nat) (key : String) : List Nat :=
  36 :: cost :: strBytes key

/-- Modelled from the spec: `bcrypt.GenerateFromPassword`. Computes a
salted adaptive one-way hash of the key at the given cost; fails only
when the key exceeds the primitive's 72-byte input limit. Idealized as a
perfect one-way function: the hash is an injective encoding of the key,
used by comparison only through equality. -/
def bcryptGenerateFromPassword (key : String) (cost : Nat) :
    Except BcryptError (List Nat) :=
  if key.utf8ByteSize > 72 then .error .passwordTooLong
  else .ok (bcryptEncodeHash cost key)

/-- Modelled from the spec: `bcrypt.CompareHashAndPassword`. Returns
`none` (nil error) when the hash is well formed and was generated from
exactly this key, `some mismatchedHashAndPassword` when it is well formed
but was generated from a different key, and another error when the stored
bytes are not a well-formed hash (including the nil slice). -/
def bcryptCompareHashAndPassword (hashedPassword : Option (List Nat))
    (key : String) : Option BcryptError :=
  match hashedPassword with
  | some (36 :: _cost :: stored) =>
      if stored = strBytes key then none
      else some .mismatchedHashAndPassword
  | _ => some .hashTooShort

/-- Go `password.Password` from `internal/password/hash.go`: a transient
plaintext (`*string`, nil modelled as `none`) and the persisted hash
(`[]byte`, nil modelled as `none`). -/
structure Password where
  PlainText : Option String
  Hash : Option (List Nat)
  deriving DecidableEq, Repr

/-- Go `Password.Set` from `internal/password/hash.go`: computes the bcrypt
hash of the plaintext at cost 12; on a primitive error returns the error
with the receiver unchanged, otherwise stores both the plaintext and the
hash. Returns the updated receiver and the Go error value. -/
def Password.Set (p : Password) (plainTestPassword : String) :
    Password × Option BcryptError :=
  match bcryptGenerateFromPassword plainTestPassword 12 with
  | .error err => (p, some err)
  | .ok hash => ({ PlainText := some plainTestPassword, Hash := some hash }, none)

/-- Go `Password.Matches` from `internal/password/hash.go`: verifies the
candidate plaintext against the stored hash; a mismatch is `(false, nil)`,
any other verification failure is `(false, err)`, a match is `(true, nil)`. -/
def Password.Matches (p : Password) (plainTestPassword : String) :
    Bool × Option BcryptError :=
  match bcryptCompareHashAndPassword p.Hash plainTestPassword with
  | some err =>
      if err = .mismatchedHashAndPassword then (false, none)
      else (false, some err)
  | none => (true, none)

example : (Password.Set ⟨none, none⟩ "secret-pass").2 = none := by decide
example :
    ((Password.Set ⟨none, none⟩ "secret-pass").1.Matches ("secret-pass")) =
      (true, none) := by decide
example :
    ((Password.Set ⟨none, none⟩ "secret-pass").1.Matches ("secret-passx")) =
      (false, none) := by decide
example : (Password.Matches ⟨none, some [0, 1]⟩ "a") =
    (false, some .hashTooShort) := by decide

/-- Modelled from the spec: the `internal/validator` collaborator, a pure
helper that accumulates named field-level failures. An error is recorded
under a key only once (the first message for a key wins). -/
structure Validator where
  Errors : List (String × String)
  deriving DecidableEq, Repr

/-- Modelled from the spec: `Validator.AddError` records a message under a
key unless the key already has one. -/
def Validator.addError (v : Validator) (key message : String) : Validator :=
  if v.Errors.any (fun kv => kv.1 == key) then v
  else ⟨v.Errors ++ [(key, message)]⟩

/-- Modelled from the spec: `Validator.Check` records the failure message
when the checked condition is false. -/
def Validator.check (v : Validator) (ok : Bool) (key message : String) :
    Validator :=
  if ok then v else v.addError key message

/-- Modelled from the spec: `validator.EmailRX` matching — a standard
email-address pattern, idealized as: exactly one `@` separating a
non-empty local part from a non-empty domain part. -/
def emailRXMatches (s : String) : Bool :=
  match s.data.dropWhile (fun c => c != '@') with
  | _ :: domain =>
      s.data.takeWhile (fun c => c != '@') != [] &&
      domain != [] && !(domain.contains '@')
  | [] => false

/-- Modelled from the spec: `password.CommonPasswords`, the fixed
common-password denylist (the repository file defining it is not among
the given sources; only that it is a fixed list matters here). -/
def CommonPasswords : List String :=
  ["password", "12345678", "123456789", "qwerty123"]

/-- Modelled from the spec: `validator.NotIn` — the value appears in none
of the listed values. -/
def validatorNotIn (value : String) (list : List String) : Bool :=
  !(list.contains value)

/-- Modelled from the spec: `validator.PermittedValue` — the value is
exactly one of the listed values. -/
def validatorPermittedValue (value : String) (list : List String) : Bool :=
  list.contains value

/-- Go `data.Filters` from `internal/data/filters.go`. -/
structure Filters where
  Page : Int
  PageSize : Int
  SortKey : String
  SortSafeList : List String
  deriving DecidableEq, Repr

/-- Go `ValidateFilters` from `internal/data/filters.go`. -/
def ValidateFilters (v : Validator) (f : Filters) : Validator :=
  let v := v.check (decide (f.Page > 0)) "page" "must be greater than zero"
  let v := v.check (decide (f.Page ≤ 10000000)) "page" "must be a maximum of 10 million"
  let v := v.check (decide (f.PageSize > 0)) "page_size" "must be greater than zero"
  let v := v.check (decide (f.PageSize ≤ 100)) "page_size" "must be less than 100"
  v.check (validatorPermittedValue f.SortKey f.SortSafeList) "sort" "invalid sort value"

/-- Go `strings.HasPrefix(s, "-")`: the string begins with `-`. -/
def hasLeadingDash (s : String) : Bool :=
  match s.data with
  | c :: _ => c == '-'
  | [] => false

/-- Go `strings.TrimPrefix(s, "-")` as used by `sortColumn`: removes one
leading `-` when present. -/
def trimLeadingDash (s : String) : String :=
  match s.data with
  | '-' :: rest => ⟨rest⟩
  | _ => s

/-- Go `Filters.sortColumn` from `internal/data/filters.go`: scans the
safelist for an exact match of the Sort field and returns the column name
with the leading `-` stripped; a Sort value outside the safelist panics
(modelled as the error case) rather than yielding a column. -/
def Filters.sortColumn (f : Filters) : Except String String :=
  match f.SortSafeList.find? (fun safeValue => f.SortKey == safeValue) with
  | some _ => .ok (trimLeadingDash f.SortKey)
  | none => .error ("unsafe sort parameter: " ++ f.SortKey)

/-- Go `Filters.sortDirection` from `internal/data/filters.go`. -/
def Filters.sortDirection (f : Filters) : String :=
  if hasLeadingDash f.SortKey then ("DESC") else ("ASC")

/-- Go `Filters.limit` from `internal/data/filters.go`. -/
def Filters.limit (f : Filters) : Int :=
  f.PageSize

/-- Go `Filters.offset` from `internal/data/filters.go`. -/
def Filters.offset (f : Filters) : Int :=
  (f.Page - 1) * f.PageSize

/-- Go `data.Metadata` from `internal/data/filters.go`; the Go zero value is
all-zero. -/
structure Metadata where
  CurrentPage : Int
  PageSize : Int
  FirstPage : Int
  LastPage : Int
  TotalRecords : Int
  deriving DecidableEq, Repr

/-- Go `int(math.Ceil(float64 a / float64 b))` for `b ≥ 1`, idealized as the
exact integer ceiling of `a / b` (exact for every count within float64's
integer range): with `b > 0` the ceiling equals floor division of
`a + b - 1` by `b`. -/
def ceilIntDiv (a b : Int) : Int :=
  (a + b - 1) / b

/-- Go `calculateMetadata` from `internal/data/filters.go`: the all-zero
sentinel when there are no records, otherwise the page summary with
`LastPage` the ceiling of `totalRecords / pagesize`. -/
def calculateMetadata (totalRecords page pagesize : Int) : Metadata :=
  if totalRecords = 0 then ⟨0, 0, 0, 0, 0⟩
  else ⟨page, pagesize, 1, ceilIntDiv totalRecords pagesize, totalRecords⟩

example : calculateMetadata 95 2 20 = ⟨2, 20, 1, 5, 95⟩ := by decide
example : calculateMetadata 0 1 20 = ⟨0, 0, 0, 0, 0⟩ := by decide
example : (Filters.mk 1 20 ("-id") ["id", "-id"]).sortColumn = .ok ("id") := rfl
example : (Filters.mk 1 20 ("-id") ["id", "-id"]).sortDirection = "DESC" := by
  decide
example : (Filters.mk 1 20 ("name") ["id", "-id"]).sortColumn =
    .error ("unsafe sort parameter: name") := rfl

/-- Go `data.User` from `internal/data/users.go`. `CreatedAt` and the token
expiries are timestamps, modelled as integers. -/
structure User where
  ID : Int
  CreatedAt : Int
  Name : String
  Email : String
  Password : Password
  Activated : Bool
  Version : Int
  deriving DecidableEq, Repr

/-- Go `ValidateEmail` from `internal/data/users.go`. -/
def ValidateEmail (v : Validator) (email : String) : Validator :=
  let v := v.check (email != "") "email" "must be provided"
  v.check (emailRXMatches email) "email" "must be a valid email address"

/-- Go `ValidatePassowrdPlaintext` from `internal/data/users.go` (the
misspelling is the source's). -/
def ValidatePassowrdPlaintext (v : Validator) (pass : String) : Validator :=
  let v := v.check (pass != "") "password" "must be provided"
  let v := v.check (decide (pass.utf8ByteSize ≥ 8)) "password"
    "must be at least 8 bytes long"
  let v := v.check (decide (pass.utf8ByteSize ≤ 72)) "password"
    "must not be more than 72 bytes long"
  v.check (validatorNotIn pass CommonPasswords) "Password" "Password is too common"

/-- The two inline name checks at the start of `ValidateUser` in
`internal/data/users.go`. -/
def validateUserName (v : Validator) (name : String) : Validator :=
  let v := v.check (name != "") "name" "must be provided"
  v.check (decide (name.utf8ByteSize ≤ 500)) "name"
    "must not be more than 500 bytes long"

/-- Go `ValidateUser` from `internal/data/users.go`: name checks, email
checks, password-plaintext checks only when a plaintext is present, then
a panic (modelled as the error case) when the password hash is nil. -/
def ValidateUser (v : Validator) (user : User) : Except String Validator :=
  let v1 := validateUserName v user.Name
  let v2 := ValidateEmail v1 user.Email
  let v3 :=
    match user.Password.PlainText with
    | some p => ValidatePassowrdPlaintext v2 p
    | none => v2
  if user.Password.Hash = none then .error ("missing password hash for user")
  else .ok v3

/-- A Go `error` value as discriminated by `users.go`: either
`sql.ErrNoRows` (tested with `errors.Is`) or a store error carrying a
message (tested by comparing `err.Error()` against a `pq` constraint
string). -/
inductive GoError where
  | sqlErrNoRows
  | pqMsg (msg : String)
  deriving DecidableEq, Repr

/-- Go `err.Error()` for a modelled Go error. -/
def GoError.errString : GoError → String
  | .sqlErrNoRows => "sql: no rows in result set"
  | .pqMsg m => m

/-- The error taxonomy of the `data` package: `ErrDuplicateEmail`,
`ErrRecordNotFound`, `ErrEditConflict`, or an underlying store error
surfaced unwrapped. -/
inductive DataError where
  | duplicateEmail
  | recordNotFound
  | editConflict
  | other (e : GoError)
  deriving DecidableEq, Repr

/-- The `pq` error text the store actually emits on a duplicate email:
the unique constraint on `users.email` is named `users_email_key`
(documented by the comment above `Insert`'s scan in `users.go` and by the
spec's schema section). -/
def pqDuplicateEmailMsg : String :=
  "pq: duplicate key value violates unique constraint \"users_email_key\""

/-- A row of the `users` table. -/
structure Row where
  id : Int
  created_at : Int
  name : String
  email : String
  password_hash : Option (List Nat)
  activated : Bool
  version : Int
  deriving DecidableEq, Repr

/-- The `User` read back from a scanned row (the fields `GetByEmail` and
`GetForToken` scan; the plaintext is never read from the store). -/
def rowToUser (r : Row) : User :=
  ⟨r.id, r.created_at, r.name, r.email, ⟨none, r.password_hash⟩, r.activated,
    r.version⟩

/-- The error-classification switch in `UserModel.Insert`: the `pq`
duplicate-key message for constraint `"users_email_key"` becomes
`ErrDuplicateEmail`; anything else is returned unchanged. -/
def insertClassifyError (err : GoError) : DataError :=
  if err.errString =
      "pq: duplicate key value violates unique constraint \"users_email_key\"" then
    .duplicateEmail
  else .other err

/-- The error-classification switch in `UserModel.Update`: a `pq`
duplicate-key message for constraint `"user_email_key"` (singular — as
written in the source) becomes `ErrDuplicateEmail`; `sql.ErrNoRows`
becomes `ErrEditConflict`; anything else is returned unchanged. -/
def updateClassifyError (err : GoError) : DataError :=
  if err.errString =
      "pq: duplicate key value violates unique constraint \"user_email_key\"" then
    .duplicateEmail
  else if err = .sqlErrNoRows then .editConflict
  else .other err

/-- The compare-and-swap condition of `Update`'s statement:
`WHERE id = $5 AND version = $6`. -/
def rowMatchesCAS (u : User) (r : Row) : Bool :=
  r.id == u.ID && r.version == u.Version

/-- The effect of `Update`'s `SET` clause on a matched row:
`SET name, email, password_hash, activated, version = version + 1`. -/
def applyUpdate (u : User) (r : Row) : Row :=
  { r with
    name := u.Name
    email := u.Email
    password_hash := u.Password.Hash
    activated := u.Activated
    version := r.version + 1 }

/-- The store's execution of `Insert`'s statement: violating the unique
constraint on `email` raises the `pq` duplicate-key error and changes
nothing; otherwise the row is appended with the store-assigned id and
creation time and version 1, which are returned (`RETURNING id,
created_at, version`). -/
def dbExecInsert (db : List Row) (u : User) (newId now : Int) :
    List Row × Except GoError (Int × Int × Int) :=
  if db.any (fun r => r.email == u.Email) then
    (db, .error (.pqMsg pqDuplicateEmailMsg))
  else
    (db ++ [⟨newId, now, u.Name, u.Email, u.Password.Hash, u.Activated, 1⟩],
      .ok (newId, now, 1))

/-- Go `UserModel.Insert` from `internal/data/users.go`: runs the insert
statement, scans the returned id/created_at/version into the user, and
classifies the store error. -/
def UserModel.Insert (db : List Row) (u : User) (newId now : Int) :
    List Row × Except DataError User :=
  match dbExecInsert db u newId now with
  | (db2, .error e) => (db2, .error (insertClassifyError e))
  | (db2, .ok (i, c, ver)) =>
      (db2, .ok { u with ID := i, CreatedAt := c, Version := ver })

/-- The store's execution of `Update`'s single atomic statement: if no
row satisfies `id = $5 AND version = $6` the scan sees `sql.ErrNoRows`;
if the new email collides with a different row's email the unique
constraint raises the `pq` duplicate-key error and changes nothing;
otherwise every matching row is written with the new fields and
`version + 1`, and the new version is returned (`RETURNING version`). -/
def dbExecUpdate (db : List Row) (u : User) : List Row × Except GoError Int :=
  match db.find? (rowMatchesCAS u) with
  | none => (db, .error .sqlErrNoRows)
  | some r =>
      if db.any (fun o => o.email == u.Email && o.id != u.ID) then
        (db, .error (.pqMsg pqDuplicateEmailMsg))
      else
        (db.map (fun o => if rowMatchesCAS u o then applyUpdate u o else o),
          .ok (r.version + 1))

/-- Go `UserModel.Update` from `internal/data/users.go`: runs the
conditional update, scans the returned version back into the user, and
classifies the store error. -/
def UserModel.Update (db : List Row) (u : User) :
    List Row × Except DataError User :=
  match dbExecUpdate db u with
  | (db2, .error e) => (db2, .error (updateClassifyError e))
  | (db2, .ok ver) => (db2, .ok { u with Version := ver })

/-- Modelled from the spec: `crypto/sha256`'s `Sum256`, the fast
deterministic one-way digest used for token lookup — idealized as an
injective executable tagging of the input bytes. -/
def sha256Sum (bs : List Nat) : List Nat :=
  115 :: bs

/-- A row of the external `tokens` table: digest of the token plaintext,
scope label, expiry timestamp, owning user id. -/
structure TokenRow where
  hash : List Nat
  scope : String
  expiry : Int
  user_id : Int
  deriving DecidableEq, Repr

/-- The join in `GetForToken`'s query: users joined to tokens on
`users.id = tokens.user_id`, filtered by digest equality, matching scope
and `tokens.expiry > $3` (strictly later than now). -/
def joinTokenUser (users : List Row) (tokens : List TokenRow)
    (hash : List Nat) (scope : String) (now : Int) : List Row :=
  tokens.filterMap (fun t =>
    if t.hash == hash && t.scope == scope && decide (now < t.expiry) then
      users.find? (fun r => r.id == t.user_id)
    else none)

/-- The query-and-scan step of `GetForToken`: the digest of the plaintext
token is computed with SHA-256 and the join query is run; a query-level
fault may be injected to model any other store failure, and an empty
result is `sql.ErrNoRows`. -/
def getForTokenScan (users : List Row) (tokens : List TokenRow) (now : Int)
    (fault : Option GoError) (tokenScope tokenPlainText : String) :
    Except GoError Row :=
  match fault with
  | some e => .error e
  | none =>
      match joinTokenUser users tokens (sha256Sum (strBytes tokenPlainText))
          tokenScope now with
      | [] => .error .sqlErrNoRows
      | r :: _ => .ok r

/-- Go `UserModel.GetForToken` from `internal/data/users.go`: runs the scan
and classifies its error — `sql.ErrNoRows` becomes `ErrRecordNotFound`,
any other error surfaces unwrapped. -/
def UserModel.GetForToken (users : List Row) (tokens : List TokenRow)
    (now : Int) (fault : Option GoError) (tokenScope tokenPlainText : String) :
    Except DataError User :=
  match getForTokenScan users tokens now fault tokenScope tokenPlainText with
  | .error e =>
      if e = .sqlErrNoRows then .error .recordNotFound else .error (.other e)
  | .ok r => .ok (rowToUser r)

/-- Modelled from the spec: the persistence path for a new user — the
handler validates the aggregate first (the validation panic on a missing
hash aborts the process) and only calls the repository `Insert` when
validation passes; a failed validation is reported to the client without
touching the store (`none` here). -/
def persistUser (db : List Row) (u : User) (newId now : Int) :
    Except String (Option (List Row × Except DataError User)) :=
  match ValidateUser ⟨[]⟩ u with
  | .error m => .error m
  | .ok v =>
      if v.Errors.isEmpty then .ok (some (UserModel.Insert db u newId now))
      else .ok none

/-! Helper lemmas. -/

theorem strBytes_append_x (p : String) :
    strBytes (p ++ "x") = strBytes p ++ [120] := by
  cases p with
  | mk d =>
      show (List.map Char.toNat (d ++ ['x'])) = _
      simp [strBytes, String.toList]

theorem strBytes_ne_append_x (p : String) :
    strBytes p ≠ strBytes (p ++ "x") := by
  rw [strBytes_append_x]
  intro h
  have hlen := congrArg List.length h
  simp at hlen

theorem ceilIntDiv_spec (a b : Int) (hb : 0 < b) :
    (ceilIntDiv a b - 1) * b < a ∧ a ≤ ceilIntDiv a b * b := by
  have h1 := Int.ediv_add_emod (a + b - 1) b
  have h2 := Int.emod_nonneg (a + b - 1) (ne_of_gt hb)
  have h3 := Int.emod_lt_of_pos (a + b - 1) hb
  unfold ceilIntDiv
  constructor <;> nlinarith [h1, h2, h3]

/-! Claim theorems. -/

/-- Claim C4: a Filters value whose Sort field is exactly a member of the
safelist resolves to the Sort token with its leading `-` stripped, with
direction `DESC` exactly when the token begins with `-`; a Sort field
outside the safelist makes `sortColumn` panic and never yields a column
name. -/
theorem claim_C4 (f : Filters) :
    (f.SortKey ∈ f.SortSafeList →
      f.sortColumn = .ok (trimLeadingDash f.SortKey) ∧
      (f.sortDirection = "DESC" ↔ hasLeadingDash f.SortKey = true)) ∧
    (f.SortKey ∉ f.SortSafeList →
      f.sortColumn = .error ("unsafe sort parameter: " ++ f.SortKey) ∧
      ∀ c, f.sortColumn ≠ .ok c) := by
  have hdir : f.sortDirection = "DESC" ↔ hasLeadingDash f.SortKey = true := by
    unfold Filters.sortDirection
    by_cases h : hasLeadingDash f.SortKey = true
    · simp [h]
    · simp [h]
  constructor
  · intro hmem
    refine ⟨?_, hdir⟩
    cases hfind : f.SortSafeList.find? (fun safeValue => f.SortKey == safeValue) with
    | none =>
        exfalso
        rw [List.find?_eq_none] at hfind
        have := hfind f.SortKey hmem
        simp at this
    | some v => simp [Filters.sortColumn, hfind]
  · intro hmem
    have hfind : f.SortSafeList.find? (fun safeValue => f.SortKey == safeValue) = none := by
      rw [List.find?_eq_none]
      intro x hx
      simp only [beq_iff_eq]
      intro hEq
      exact hmem (hEq ▸ hx)
    refine ⟨by simp [Filters.sortColumn, hfind], ?_⟩
    intro c
    simp [Filters.sortColumn, hfind]

/-- Claim C4 witness: concrete evaluations through the theorem, one Sort
value inside the safelist and one outside. -/
theorem claim_C4_witness :
    (Filters.mk 1 20 ("-id") ["id", "-id"]).sortColumn = .ok ("id") ∧
    (Filters.mk 1 20 ("-id") ["id", "-id"]).sortDirection = "DESC" ∧
    (Filters.mk 1 20 ("name") ["id", "-id"]).sortColumn =
      .error ("unsafe sort parameter: name") := by
  have h1 := (claim_C4 (Filters.mk 1 20 ("-id") ["id", "-id"])).1 (by decide)
  have h2 := (claim_C4 (Filters.mk 1 20 ("name") ["id", "-id"])).2 (by decide)
  exact ⟨h1.1, h1.2.mpr (by decide), h2.1⟩

/-- Claim C9: for a page size of at least one, `calculateMetadata` is the
all-zero value on zero records and otherwise echoes page, page size and
total, with first page 1 and last page the exact integer ceiling of
totalRecords over pageSize (characterized order-theoretically); in
particular `calculateMetadata 95 2 20` is `{2, 20, 1, 5, 95}`. -/
theorem claim_C9 (t p s : Int) (hs : 1 ≤ s) :
    (t = 0 → calculateMetadata t p s = ⟨0, 0, 0, 0, 0⟩) ∧
    (t ≠ 0 →
      (calculateMetadata t p s).CurrentPage = p ∧
      (calculateMetadata t p s).PageSize = s ∧
      (calculateMetadata t p s).FirstPage = 1 ∧
      (calculateMetadata t p s).TotalRecords = t ∧
      ((calculateMetadata t p s).LastPage - 1) * s < t ∧
      t ≤ (calculateMetadata t p s).LastPage * s) ∧
    calculateMetadata 95 2 20 = ⟨2, 20, 1, 5, 95⟩ := by
  refine ⟨fun h0 => by simp [calculateMetadata, h0], fun hne => ?_, by decide⟩
  have hceil := ceilIntDiv_spec t s (by omega)
  unfold calculateMetadata
  rw [if_neg hne]
  exact ⟨rfl, rfl, rfl, rfl, hceil.1, hceil.2⟩

/-- Claim C9 witness: the concrete evaluation obtained by applying the
theorem at (95, 2, 20). -/
theorem claim_C9_witness : calculateMetadata 95 2 20 = ⟨2, 20, 1, 5, 95⟩ :=
  (claim_C9 95 2 20 (by decide)).2.2

/-- Claim C3, evaluation at the failing input: the store's real
duplicate-email error text (constraint `users_email_key`, as documented
at `Insert`) is mapped to `ErrDuplicateEmail` by `Insert`'s switch but
falls through `Update`'s switch (which compares against the singular
`user_email_key`) and is returned as a generic error; the
`sql.ErrNoRows`-to-`ErrEditConflict` mapping does hold, and an end-to-end
`Update` against a store row holding the target email surfaces the raw
`pq` error instead of `ErrDuplicateEmail`. -/
theorem claim_C3_code_eval :
    insertClassifyError (.pqMsg pqDuplicateEmailMsg) = .duplicateEmail ∧
    updateClassifyError (.pqMsg pqDuplicateEmailMsg) =
      .other (.pqMsg pqDuplicateEmailMsg) ∧
    updateClassifyError .sqlErrNoRows = .editConflict ∧
    (UserModel.Update
      [⟨1, 0, "alice", "alice@example.com", some [36, 12], false, 1⟩,
       ⟨2, 0, "bob", "bob@example.com", some [36, 12], false, 1⟩]
      ⟨1, 0, "alice", "bob@example.com", ⟨none, some [36, 12]⟩, false, 1⟩).2 =
      .error (.other (.pqMsg pqDuplicateEmailMsg)) := by
  refine ⟨by decide, by decide, by decide, ?_⟩
  rfl

/-- Claim C5: a user whose credential hash is nil makes `ValidateUser`
panic, and the persistence path therefore aborts before any store write
rather than returning normally. -/
theorem claim_C5 (v : Validator) (u : User) (db : List Row) (newId now : Int)
    (h : u.Password.Hash = none) :
    ValidateUser v u = .error ("missing password hash for user") ∧
    persistUser db u newId now = .error ("missing password hash for user") := by
  have hval : ValidateUser v u = .error ("missing password hash for user") := by
    unfold ValidateUser
    rw [if_pos h]
  have hval0 : ValidateUser ⟨[]⟩ u = .error ("missing password hash for user") := by
    unfold ValidateUser
    rw [if_pos h]
  exact ⟨hval, by unfold persistUser; rw [hval0]⟩

/-- Claim C5 witness: a concrete user with a nil hash, through the
theorem. -/
theorem claim_C5_witness :
    ValidateUser ⟨[]⟩ ⟨0, 0, "alice", "alice@example.com", ⟨none, none⟩, false, 0⟩ =
      .error ("missing password hash for user") ∧
    persistUser [] ⟨0, 0, "alice", "alice@example.com", ⟨none, none⟩, false, 0⟩ 1 0 =
      .error ("missing password hash for user") :=
  claim_C5 ⟨[]⟩ ⟨0, 0, "alice", "alice@example.com", ⟨none, none⟩, false, 0⟩ [] 1 0 rfl

/-- Claim C10: `Set` is atomic — when the hashing primitive fails, the
error is returned and the receiver's fields are exactly as before; on
success both fields are overwritten, the hash with the bcrypt hash of the
plaintext at cost 12 and the plaintext field with the given plaintext. -/
theorem claim_C10 (pw : Password) (plain : String) :
    (∀ e, bcryptGenerateFromPassword plain 12 = .error e →
      pw.Set plain = (pw, some e)) ∧
    (∀ h, bcryptGenerateFromPassword plain 12 = .ok h →
      pw.Set plain = (⟨some plain, some h⟩, none) ∧
      h = bcryptEncodeHash 12 plain) := by
  constructor
  · intro e he
    simp [Password.Set, he]
  · intro h hh
    refine ⟨by simp [Password.Set, hh], ?_⟩
    unfold bcryptGenerateFromPassword at hh
    by_cases hlen : plain.utf8ByteSize > 72
    · rw [if_pos hlen] at hh
      cases hh
    · rw [if_neg hlen] at hh
      cases hh
      rfl

/-- Claim C10 witness: a 73-byte plaintext exercises the error branch
leaving the receiver untouched; a short plaintext exercises the success
branch. -/
theorem claim_C10_witness :
    (Password.Set ⟨some ("old"), some [1, 2]⟩
      "aaaaaaaaaaaaaaaaaaaaaaaaaaaaaaaaaaaaaaaaaaaaaaaaaaaaaaaaaaaaaaaaaaaaaaaaa") =
      (⟨some ("old"), some [1, 2]⟩, some .passwordTooLong) ∧
    (Password.Set ⟨some ("old"), some [1, 2]⟩ "correct-horse") =
      (⟨some ("correct-horse"), some (bcryptEncodeHash 12 ("correct-horse"))⟩, none) := by
  constructor
  · exact (claim_C10 ⟨some ("old"), some [1, 2]⟩
      "aaaaaaaaaaaaaaaaaaaaaaaaaaaaaaaaaaaaaaaaaaaaaaaaaaaaaaaaaaaaaaaaaaaaaaaaa").1
      .passwordTooLong rfl
  · exact ((claim_C10 ⟨some ("old"), some [1, 2]⟩ "correct-horse").2
      (bcryptEncodeHash 12 ("correct-horse")) rfl).1

/-- Claim C1: for every plaintext within the primitive's 72-byte limit,
`Set` succeeds, a subsequent `Matches` on the same plaintext is
`(true, nil)`, and `Matches` on the plaintext extended by `"x"` is
`(false, nil)`. -/
theorem claim_C1 (p : String) (hp : p.utf8ByteSize ≤ 72) (pw : Password) :
    (pw.Set p).2 = none ∧
    (pw.Set p).1.Matches p = (true, none) ∧
    (pw.Set p).1.Matches (p ++ "x") = (false, none) := by
  have hgen : bcryptGenerateFromPassword p 12 = .ok (bcryptEncodeHash 12 p) := by
    unfold bcryptGenerateFromPassword
    rw [if_neg (by omega)]
  have hset : pw.Set p = (⟨some p, some (bcryptEncodeHash 12 p)⟩, none) := by
    simp [Password.Set, hgen]
  rw [hset]
  have hne := strBytes_ne_append_x p
  refine ⟨rfl, ?_, ?_⟩
  · simp [Password.Matches, bcryptCompareHashAndPassword, bcryptEncodeHash]
  · simp [Password.Matches, bcryptCompareHashAndPassword, bcryptEncodeHash,
      hne]

/-- Claim C1 witness: a concrete plaintext, through the theorem. -/
theorem claim_C1_witness :
    ((Password.mk none none).Set ("hunter2-plus-entropy")).2 = none ∧
    (((Password.mk none none).Set ("hunter2-plus-entropy")).1.Matches
      "hunter2-plus-entropy") = (true, none) ∧
    (((Password.mk none none).Set ("hunter2-plus-entropy")).1.Matches
      ("hunter2-plus-entropy" ++ "x")) = (false, none) :=
  claim_C1 ("hunter2-plus-entropy") (by decide) (Password.mk none none)

/-- Claim C2: `Matches` is `(false, nil)` exactly when the verification
primitive reports a hash/plaintext mismatch, and `(false, err)` with the
non-nil underlying error for every other verification failure. -/
theorem claim_C2 (pw : Password) (pt : String) :
    (pw.Matches pt = (false, none) ↔
      bcryptCompareHashAndPassword pw.Hash pt =
        some .mismatchedHashAndPassword) ∧
    (∀ e, bcryptCompareHashAndPassword pw.Hash pt = some e →
      e ≠ .mismatchedHashAndPassword → pw.Matches pt = (false, some e)) := by
  constructor
  · constructor
    · intro h
      unfold Password.Matches at h
      cases hc : bcryptCompareHashAndPassword pw.Hash pt with
      | none => rw [hc] at h; simp at h
      | some e =>
          rw [hc] at h
          by_cases he : e = BcryptError.mismatchedHashAndPassword
          · rw [he]
          · simp [he] at h
    · intro hc
      unfold Password.Matches
      rw [hc]
      simp
  · intro e hc he
    unfold Password.Matches
    rw [hc]
    simp [he]

/-- Claim C2 witness: a mismatch on a well-formed hash is `(false, nil)`,
and a malformed stored hash is `(false, err)` with the underlying error,
through the theorem. -/
theorem claim_C2_witness :
    (Password.mk none (some (bcryptEncodeHash 12 ("right")))).Matches ("wrong") =
      (false, none) ∧
    (Password.mk none (some [0, 1])).Matches ("right") =
      (false, some .hashTooShort) :=
  ⟨(claim_C2 (Password.mk none (some (bcryptEncodeHash 12 ("right")))) "wrong").1.mpr
      (by simp [bcryptCompareHashAndPassword, bcryptEncodeHash, strBytes]),
    (claim_C2 (Password.mk none (some [0, 1])) "right").2 .hashTooShort rfl
      (by simp)⟩

/-- Claim C8: when the credential hash is present, `ValidateUser` applies
the name and email rules always and the plaintext-password rules exactly
when an in-memory plaintext is present; a user with no plaintext, a hash,
and valid name and email passes with nothing recorded. -/
theorem claim_C8 (v : Validator) (u : User) (hh : u.Password.Hash ≠ none) :
    (u.Password.PlainText = none →
      ValidateUser v u =
        .ok (ValidateEmail (validateUserName v u.Name) u.Email)) ∧
    (∀ p, u.Password.PlainText = some p →
      ValidateUser v u =
        .ok (ValidatePassowrdPlaintext
          (ValidateEmail (validateUserName v u.Name) u.Email) p)) ∧
    (u.Password.PlainText = none → u.Name ≠ "" → u.Name.utf8ByteSize ≤ 500 →
      u.Email ≠ "" → emailRXMatches u.Email = true →
      ValidateUser v u = .ok v) := by
  have hA : u.Password.PlainText = none →
      ValidateUser v u =
        .ok (ValidateEmail (validateUserName v u.Name) u.Email) := by
    intro hpt
    unfold ValidateUser
    rw [hpt, if_neg hh]
  refine ⟨hA, ?_, ?_⟩
  · intro p hpt
    unfold ValidateUser
    rw [hpt, if_neg hh]
  · intro hpt hn hn5 he hrx
    have h1 : validateUserName v u.Name = v := by
      unfold validateUserName Validator.check
      rw [if_pos (by simp [hn5]), if_pos (by simp [hn])]
    have h2 : ValidateEmail v u.Email = v := by
      unfold ValidateEmail Validator.check
      rw [if_pos hrx, if_pos (by simp [he])]
    rw [hA hpt, h1, h2]

/-- Claim C8 witness: a concrete user carrying only a hash passes with no
errors, and one carrying a plaintext gets the password rules applied,
through the theorem. -/
theorem claim_C8_witness :
    ValidateUser ⟨[]⟩
      ⟨0, 0, "alice", "alice@example.com", ⟨none, some [36, 12]⟩, false, 0⟩ =
      .ok ⟨[]⟩ ∧
    ValidateUser ⟨[]⟩
      ⟨0, 0, "alice", "alice@example.com", ⟨some ("password"), some [36, 12]⟩,
        false, 0⟩ =
      .ok (ValidatePassowrdPlaintext
        (ValidateEmail
          (validateUserName ⟨[]⟩ "alice") "alice@example.com") "password") :=
  ⟨(claim_C8 ⟨[]⟩
      ⟨0, 0, "alice", "alice@example.com", ⟨none, some [36, 12]⟩, false, 0⟩
      (by simp)).2.2 rfl (by decide) (by decide) (by decide) (by decide),
    (claim_C8 ⟨[]⟩
      ⟨0, 0, "alice", "alice@example.com", ⟨some ("password"), some [36, 12]⟩,
        false, 0⟩
      (by simp)).2.1 ("password") rfl⟩

/-- Claim C6: `GetForToken` looks the user up through the SHA-256 digest
of the plaintext token — any returned user is joined through a token
binding whose hash equals that digest, whose scope matches, and whose
expiry is strictly later than now; when no binding satisfies all three
conditions the identical `ErrRecordNotFound` is returned (whichever
condition failed), and any other store error surfaces unwrapped. -/
theorem claim_C6 (users : List Row) (tokens : List TokenRow) (now : Int)
    (fault : Option GoError) (tokenScope tokenPlainText : String) :
    (∀ u, UserModel.GetForToken users tokens now fault tokenScope
        tokenPlainText = .ok u →
      ∃ t ∈ tokens, t.hash = sha256Sum (strBytes tokenPlainText) ∧
        t.scope = tokenScope ∧ now < t.expiry ∧
        ∃ r ∈ users, r.id = t.user_id ∧ u = rowToUser r) ∧
    (fault = none →
      (∀ t ∈ tokens, ¬(t.hash = sha256Sum (strBytes tokenPlainText) ∧
        t.scope = tokenScope ∧ now < t.expiry)) →
      UserModel.GetForToken users tokens now fault tokenScope tokenPlainText =
        .error .recordNotFound) ∧
    (∀ e, fault = some e → e ≠ .sqlErrNoRows →
      UserModel.GetForToken users tokens now fault tokenScope tokenPlainText =
        .error (.other e)) := by
  refine ⟨?_, ?_, ?_⟩
  · intro u hu
    unfold UserModel.GetForToken at hu
    cases hscan : getForTokenScan users tokens now fault tokenScope
        tokenPlainText with
    | error e =>
        rw [hscan] at hu
        by_cases he : e = GoError.sqlErrNoRows <;> simp [he] at hu
    | ok r0 =>
        rw [hscan] at hu
        simp at hu
        unfold getForTokenScan at hscan
        cases hf : fault with
        | some e => rw [hf] at hscan; simp at hscan
        | none =>
            rw [hf] at hscan
            cases hj : joinTokenUser users tokens
                (sha256Sum (strBytes tokenPlainText)) tokenScope now with
            | nil => rw [hj] at hscan; simp at hscan
            | cons r rest =>
                rw [hj] at hscan
                simp at hscan
                have hr : r ∈ joinTokenUser users tokens
                    (sha256Sum (strBytes tokenPlainText)) tokenScope now := by
                  rw [hj]; exact List.mem_cons_self r rest
                obtain ⟨t, ht, hft⟩ := List.mem_filterMap.mp hr
                by_cases hc : (t.hash == sha256Sum (strBytes tokenPlainText) &&
                    (t.scope == tokenScope) && decide (now < t.expiry)) = true
                · rw [if_pos hc] at hft
                  simp only [Bool.and_eq_true, beq_iff_eq,
                    decide_eq_true_eq] at hc
                  refine ⟨t, ht, hc.1.1, hc.1.2, hc.2,
                    r, List.mem_of_find?_eq_some hft,
                    by simpa using List.find?_some hft, ?_⟩
                  rw [← hu, hscan]
                · rw [if_neg hc] at hft
                  cases hft
  · intro hf hnone
    have hjoin : joinTokenUser users tokens
        (sha256Sum (strBytes tokenPlainText)) tokenScope now = [] := by
      unfold joinTokenUser
      rw [List.filterMap_eq_nil_iff]
      intro t ht
      by_cases hc : (t.hash == sha256Sum (strBytes tokenPlainText) &&
          (t.scope == tokenScope) && decide (now < t.expiry)) = true
      · exfalso
        apply hnone t ht
        simp only [Bool.and_eq_true, beq_iff_eq, decide_eq_true_eq] at hc
        exact ⟨hc.1.1, hc.1.2, hc.2⟩
      · exact if_neg hc
    have hscan : getForTokenScan users tokens now fault tokenScope
        tokenPlainText = .error .sqlErrNoRows := by
      unfold getForTokenScan
      rw [hf, hjoin]
    unfold UserModel.GetForToken
    rw [hscan]
    rfl
  · intro e hf he
    have hscan : getForTokenScan users tokens now fault tokenScope
        tokenPlainText = .error e := by
      unfold getForTokenScan
      rw [hf]
    unfold UserModel.GetForToken
    rw [hscan]
    simp [he]

/-- Claim C6 witness: with no bindings at all the lookup is
`ErrRecordNotFound`, and an injected store fault surfaces unwrapped,
through the theorem. -/
theorem claim_C6_witness :
    UserModel.GetForToken [] [] 0 none ("authentication") "TOKEN" =
      .error .recordNotFound ∧
    UserModel.GetForToken [] [] 0 (some (.pqMsg ("pq: connection lost")))
      "authentication" "TOKEN" = .error (.other (.pqMsg ("pq: connection lost"))) :=
  ⟨(claim_C6 [] [] 0 none ("authentication") "TOKEN").2.1 rfl
      (fun t ht => absurd ht (List.not_mem_nil t)),
    (claim_C6 [] [] 0 (some (.pqMsg ("pq: connection lost"))) "authentication"
      "TOKEN").2.2 (.pqMsg ("pq: connection lost")) rfl (by simp)⟩

/-- Inversion of a successful store-level conditional update: some row
satisfied the compare-and-swap condition, no other row held the target
email, the resulting store is the row-wise rewrite, and the returned
version is the matched row's version plus one. -/
theorem dbExecUpdate_ok (db : List Row) (u : User) (db2 : List Row) (ver : Int)
    (h : dbExecUpdate db u = (db2, .ok ver)) :
    ∃ r, db.find? (rowMatchesCAS u) = some r ∧
      db2 = db.map (fun o => if rowMatchesCAS u o then applyUpdate u o else o) ∧
      ver = r.version + 1 := by
  unfold dbExecUpdate at h
  cases hfind : db.find? (rowMatchesCAS u) with
  | none => rw [hfind] at h; simp at h
  | some r =>
      rw [hfind] at h
      by_cases hdup : (db.any fun o => o.email == u.Email && o.id != u.ID) = true
      · simp only [hdup, if_true] at h
        simp at h
      · simp only [Bool.not_eq_true] at hdup
        simp only [hdup, Bool.false_eq_true, if_false] at h
        simp only [Prod.mk.injEq, Except.ok.injEq] at h
        exact ⟨r, rfl, h.1.symm, h.2.symm⟩

/-- Inversion of a successful repository `Update`: the store-level update
succeeded and the scanned version was written back into the user. -/
theorem update_ok (db : List Row) (u : User) (db2 : List Row) (u2 : User)
    (h : UserModel.Update db u = (db2, .ok u2)) :
    ∃ ver, dbExecUpdate db u = (db2, .ok ver) ∧
      u2 = { u with Version := ver } := by
  unfold UserModel.Update at h
  cases hexec : dbExecUpdate db u with
  | mk dbx res =>
      rw [hexec] at h
      cases res with
      | error e => simp at h
      | ok ver =>
          simp only [Prod.mk.injEq, Except.ok.injEq] at h
          exact ⟨ver, by rw [h.1], h.2.symm⟩

/-- Claim C7: a successful `Update` is a single compare-and-swap — in a
store with unique row ids there is exactly one row whose id and version
equal the caller's, the resulting store rewrites exactly the matching
rows (each with its version incremented by exactly one) and leaves every
other row unchanged, and the caller's in-memory user gets back version
`u.Version + 1`, no more and no less. -/
theorem claim_C7 (db : List Row) (u : User) (db2 : List Row) (u2 : User)
    (hids : (db.map Row.id).Nodup)
    (hsucc : UserModel.Update db u = (db2, .ok u2)) :
    u2 = { u with Version := u.Version + 1 } ∧
    db2 = db.map (fun r => if rowMatchesCAS u r then applyUpdate u r else r) ∧
    (∃ r ∈ db, rowMatchesCAS u r = true ∧
      ∀ r3 ∈ db, rowMatchesCAS u r3 = true → r3 = r) ∧
    (∀ r ∈ db, rowMatchesCAS u r = false → r ∈ db2) ∧
    (∀ r ∈ db, rowMatchesCAS u r = true →
      applyUpdate u r ∈ db2 ∧ (applyUpdate u r).version = u.Version + 1) := by
  obtain ⟨ver, hexec, hu2⟩ := update_ok db u db2 u2 hsucc
  obtain ⟨r, hfind, hdb2, hver⟩ := dbExecUpdate_ok db u db2 ver hexec
  have hmem := List.mem_of_find?_eq_some hfind
  have hcas : rowMatchesCAS u r = true := List.find?_some hfind
  have hrIdVer : r.id = u.ID ∧ r.version = u.Version := by
    have := hcas
    unfold rowMatchesCAS at this
    simp only [Bool.and_eq_true, beq_iff_eq] at this
    exact this
  have hcasIdVer : ∀ r3 ∈ db, rowMatchesCAS u r3 = true → r3 = r := by
    intro r3 h3 hc3
    have h3id : r3.id = u.ID := by
      unfold rowMatchesCAS at hc3
      simp only [Bool.and_eq_true, beq_iff_eq] at hc3
      exact hc3.1
    exact List.inj_on_of_nodup_map hids h3 hmem (by rw [h3id, hrIdVer.1])
  refine ⟨by rw [hu2, hver, hrIdVer.2], hdb2, ⟨r, hmem, hcas, hcasIdVer⟩,
    ?_, ?_⟩
  · intro r3 h3 hc3
    rw [hdb2]
    have hsame : (if rowMatchesCAS u r3 then applyUpdate u r3 else r3) = r3 := by
      rw [hc3]
      simp
    rw [← hsame]
    exact List.mem_map_of_mem _ h3
  · intro r3 h3 hc3
    have h3ver : r3.version = u.Version := by
      unfold rowMatchesCAS at hc3
      simp only [Bool.and_eq_true, beq_iff_eq] at hc3
      exact hc3.2
    constructor
    · rw [hdb2]
      have hup : (if rowMatchesCAS u r3 then applyUpdate u r3 else r3) =
          applyUpdate u r3 := by
        rw [hc3]
        simp
      rw [← hup]
      exact List.mem_map_of_mem _ h3
    · unfold applyUpdate
      simp [h3ver]

/-- Claim C7 witness: a concrete one-row store on which the update
succeeds, through the theorem. -/
theorem claim_C7_witness :
    ({ ID := 1, CreatedAt := 0, Name := "alice", Email := "alice@example.com",
       Password := ⟨none, some [36, 12]⟩, Activated := true,
       Version := 2 } : User) =
      { (⟨1, 0, "alice", "alice@example.com", ⟨none, some [36, 12]⟩, true, 1⟩ :
        User) with Version := 1 + 1 } ∧
    [(⟨1, 0, "alice", "alice@example.com", some [36, 12], true, 2⟩ : Row)] =
      [(⟨1, 0, "al", "alice@example.com", some [36, 12], false, 1⟩ : Row)].map
        (fun r =>
          if rowMatchesCAS
              ⟨1, 0, "alice", "alice@example.com", ⟨none, some [36, 12]⟩,
                true, 1⟩ r then
            applyUpdate
              ⟨1, 0, "alice", "alice@example.com", ⟨none, some [36, 12]⟩,
                true, 1⟩ r
          else r) :=
  have h := claim_C7
    [⟨1, 0, "al", "alice@example.com", some [36, 12], false, 1⟩]
    ⟨1, 0, "alice", "alice@example.com", ⟨none, some [36, 12]⟩, true, 1⟩
    [⟨1, 0, "alice", "alice@example.com", some [36, 12], true, 2⟩]
    ⟨1, 0, "alice", "alice@example.com", ⟨none, some [36, 12]⟩, true, 2⟩
    (by decide) rfl
  ⟨h.1, h.2.1⟩

end BackendGoAPI
